import Mathlib

/-!
Verification of the medi-scribe chunked-upload and live-conversation
pipeline. The frontend (src/frontend/src/constants/api.js,
src/frontend/src/app/components/UploadRecord.js,
src/frontend/src/components/ui/ConversationStats.js) is embedded from the
source; the Flask backend (ChunkAssembler, ConversationBuffer,
StatsCollector, spec sections 4.2, 4.3 and 4.6) is not part of the
repository's files, so those operations are modelled from the spec's words,
as marked on each definition.
-/

namespace MediScribe

/-- A byte sequence (a JS Blob / file content) as a list of byte values. -/
abbrev Bytes := List Nat

/-! ## The upload client (from src/frontend/src/constants/api.js, handleSubmit) -/

/-- The client's chunk size: `const chunkSize = 1024 * 1024` (1MB). -/
def chunkSize : Nat := 1024 * 1024

/-- Ceiling division on naturals, the value of JS `Math.ceil(a / b)` for
nonnegative integers `a` and positive `b`. -/
def ceilDiv (a b : Nat) : Nat := (a + b - 1) / b

/-- The client's `totalChunks = Math.ceil(file.size / chunkSize)`. -/
def clientTotalChunks (size : Nat) : Nat := ceilDiv size chunkSize

/-- JS `file.slice(s, e)`: the bytes of positions `[s, e)`. -/
def slice (file : Bytes) (s e : Nat) : Bytes := (file.drop s).take (e - s)

/-- The chunk the client uploads at index `i`:
`file.slice(i * chunkSize, Math.min(i * chunkSize + chunkSize, file.size))`. -/
def clientChunk (file : Bytes) (i : Nat) : Bytes :=
  slice file (i * chunkSize) (min (i * chunkSize + chunkSize) file.length)

/-- The body of the client's `upload/init` request (api.js lines 124-128):
`{ filename: file.name, total_chunks: totalChunks, chunk_size: file.size }`.
Note the `chunk_size` field is set to the whole file's size. -/
structure InitRequestBody where
  filename : String
  total_chunks : Nat
  chunk_size : Nat
deriving DecidableEq

/-- The init request the client constructs for a selected file. -/
def initRequestOf (name : String) (file : Bytes) : InitRequestBody :=
  { filename := name
    total_chunks := clientTotalChunks file.length
    chunk_size := file.length }

/-! ## The ChunkAssembler (spec section 4.2; backend code not in src/) -/

/-- Modelled from the spec: the UploadSession status values of section 3. -/
inductive UploadStatus
  | initiated
  | receiving
  | complete
  | failed
  | expired
deriving DecidableEq

/-- Modelled from the spec: an UploadSession (section 3) — filename,
totalSize, totalChunks, the chunks received so far keyed by index, and the
status. The received-chunk store keyed by `(sessionId, chunkIndex)` is the
function from index to optional bytes. -/
structure UploadSession where
  filename : String
  totalSize : Nat
  totalChunks : Nat
  received : Nat → Option Bytes
  status : UploadStatus

/-- Modelled from the spec: the upload-side error taxonomy (section 7). -/
inductive UploadError
  | invalidRequest
  | conflict
deriving DecidableEq

/-- Modelled from the spec: `initSession(filename, totalSize, totalChunks)`
fails InvalidRequest if totalChunks ≤ 0 or totalSize ≤ 0 (sizes are
naturals, so ≤ 0 is = 0); otherwise a fresh session with no chunk received
is created. -/
def initSession (filename : String) (totalSize totalChunks : Nat) :
    Except UploadError UploadSession :=
  if totalChunks = 0 ∨ totalSize = 0 then Except.error UploadError.invalidRequest
  else Except.ok
    { filename := filename
      totalSize := totalSize
      totalChunks := totalChunks
      received := fun _ => none
      status := UploadStatus.initiated }

/-- Modelled from the spec: `receiveChunk(sessionId, chunkIndex, bytes)` —
fails InvalidRequest if the index is out of range; a re-upload with
identical bytes is a no-op success; a re-upload with different bytes fails
Conflict; otherwise the chunk is stored at its index. -/
def receiveChunk (s : UploadSession) (i : Nat) (bytes : Bytes) :
    Except UploadError UploadSession :=
  if i < s.totalChunks then
    match s.received i with
    | some b => if bytes = b then Except.ok s else Except.error UploadError.conflict
    | none =>
        Except.ok { s with
          received := fun j => if j = i then some bytes else s.received j
          status := UploadStatus.receiving }
  else Except.error UploadError.invalidRequest

/-- Modelled from the spec: the indices in `0..totalChunks-1` not yet
received, as `finishUpload` lists them in its Incomplete response. -/
def missingIndices (s : UploadSession) : List Nat :=
  (List.range s.totalChunks).filter (fun i => (s.received i).isNone)

/-- Modelled from the spec: the reassembled recording — the stored chunks
concatenated strictly in ascending index order. -/
def assembled (s : UploadSession) : Bytes :=
  ((List.range s.totalChunks).map (fun i => (s.received i).getD [])).flatten

/-- Modelled from the spec: the responses of `finish(sessionId)` (section 6):
`{recordingId}` carrying the assembled recording on success,
`{status: incomplete, missing: [...]}` when chunks are missing, and
AlreadyComplete on a session a finish already completed. -/
inductive FinishResult
  | ok (recording : Bytes) (s : UploadSession)
  | incomplete (missing : List Nat)
  | alreadyComplete

/-- Modelled from the spec: `finishUpload(sessionId)` — AlreadyComplete on an
already-complete session; Incomplete listing the missing indices unless all
of `0..totalChunks-1` are present; on success concatenates the chunks in
index order and transitions the session to complete. -/
def finishUpload (s : UploadSession) : FinishResult :=
  if s.status = UploadStatus.complete then FinishResult.alreadyComplete
  else if missingIndices s = [] then
    FinishResult.ok (assembled s) { s with status := UploadStatus.complete }
  else FinishResult.incomplete (missingIndices s)

/-- Uploading the client's chunks of `file` at the indices of `order`, in
that arrival order (each step is `receiveChunk` on the client's slice). -/
def uploadChunks (file : Bytes) (order : List Nat) (s : UploadSession) :
    Except UploadError UploadSession :=
  match order with
  | [] => Except.ok s
  | i :: rest =>
    match receiveChunk s i (clientChunk file i) with
    | Except.ok s' => uploadChunks file rest s'
    | Except.error e => Except.error e

/-! ## Sessions used as concrete inputs by the witnesses -/

/-- A one-chunk session whose single chunk `[7]` has been received. -/
def sessionA : UploadSession :=
  { filename := "a"
    totalSize := 1
    totalChunks := 1
    received := fun j => if j = 0 then some [7] else none
    status := UploadStatus.receiving }

/-- A two-chunk session still missing chunk 1. -/
def sessionB : UploadSession :=
  { filename := "b"
    totalSize := 2
    totalChunks := 2
    received := fun j => if j = 0 then some [1] else none
    status := UploadStatus.receiving }

/-! ## The ConversationBuffer (spec section 4.3; backend code not in src/) -/

/-- Modelled from the spec: the ConversationSession status values. -/
inductive ConvStatus
  | active
  | ended
deriving DecidableEq

/-- Modelled from the spec: an Utterance (section 3) — sequenceNumber,
speakerLabel, text, timestampOffset, sourceSegmentId. -/
structure Utterance where
  sequenceNumber : Nat
  speakerLabel : String
  text : String
  timestampOffset : Nat
  sourceSegmentId : Nat
deriving DecidableEq

/-- Modelled from the spec: a Summary (section 3) — sequenceNumber, text,
generatedAt, utteranceRangeCovered, generation. -/
structure Summary where
  sequenceNumber : Nat
  text : String
  generatedAt : Nat
  utteranceRangeCovered : Nat
  generation : Nat
deriving DecidableEq

/-- Modelled from the spec: a SOAPNote's four sections (section 3). -/
structure SOAPNote where
  subjective : String
  objective : String
  assessment : String
  plan : String
deriving DecidableEq

/-- Modelled from the spec: a ConversationSession (section 3) — status,
startTime, endTime, the ordered utterance log, the ordered summaries,
lastSummaryTime, and the final note produced by `end` (none until ended). -/
structure ConversationSession where
  status : ConvStatus
  startTime : Nat
  endTime : Option Nat
  utteranceLog : List Utterance
  summaries : List Summary
  lastSummaryTime : Option Nat
  finalNote : Option SOAPNote

/-- Modelled from the spec: the conversation-side error taxonomy. -/
inductive ConvError
  | sessionClosed
deriving DecidableEq

/-- Modelled from the spec: `start(sessionId)` sets status active and resets
the utterance log. -/
def startConversation (t : Nat) : ConversationSession :=
  { status := ConvStatus.active
    startTime := t
    endTime := none
    utteranceLog := []
    summaries := []
    lastSummaryTime := none
    finalNote := none }

/-- Modelled from the spec: `appendUtterance(sessionId, audioSegment)` —
rejected with SessionClosed on an ended session; otherwise the diarized
utterance returned by the TranscriptionGateway (here its speaker label,
text, timestamp offset and segment id, arbitrary because the gateway is an
external capability) is appended to the log with the next monotonically
increasing sequence number, equal to its arrival position. The asynchronous
rolling summary reads a snapshot and never mutates the log, so it is not
part of the log transition. -/
def appendUtterance (s : ConversationSession) (speaker txt : String)
    (offset segId : Nat) : Except ConvError ConversationSession :=
  if s.status = ConvStatus.ended then Except.error ConvError.sessionClosed
  else Except.ok { s with
    utteranceLog := s.utteranceLog ++
      [{ sequenceNumber := s.utteranceLog.length + 1
         speakerLabel := speaker
         text := txt
         timestampOffset := offset
         sourceSegmentId := segId }] }

/-- A sequence of `appendUtterance` calls, one per transcribed segment
`(speaker, text, offset, segmentId)`, in arrival order. -/
def appendAll (s : ConversationSession)
    (segs : List (String × String × Nat × Nat)) :
    Except ConvError ConversationSession :=
  match segs with
  | [] => Except.ok s
  | (sp, tx, off, sid) :: rest =>
    match appendUtterance s sp tx off sid with
    | Except.ok s' => appendAll s' rest
    | Except.error e => Except.error e

/-- Modelled from the spec: `end(sessionId) -> SOAPNote` — on an active
session, synthesizes the final note from the entire utterance log via the
NoteSynthesisGateway (an external capability, passed as the function
`synth`), marks status ended and records the note; on an already-ended
session, returns the previously produced note and leaves the state
unchanged. -/
def endSession (synth : List Utterance → SOAPNote) (s : ConversationSession)
    (now : Nat) : SOAPNote × ConversationSession :=
  if s.status = ConvStatus.ended then
    (s.finalNote.getD ⟨"", "", "", ""⟩, s)
  else
    let note := synth s.utteranceLog
    (note, { s with
      status := ConvStatus.ended
      endTime := some now
      finalNote := some note })

/-! ## The StatsCollector (spec section 4.6; backend code not in src/) -/

/-- Modelled from the spec: the stats snapshot of section 4.6 — exactly the
fields isActive, startTime, durationSeconds, totalUtterances,
currentBufferSize, totalSummaries, lastSummaryTime. -/
structure StatsSnapshot where
  isActive : Bool
  startTime : Nat
  durationSeconds : Nat
  totalUtterances : Nat
  currentBufferSize : Nat
  totalSummaries : Nat
  lastSummaryTime : Option Nat
deriving DecidableEq

/-- Modelled from the spec: the number of utterances already covered by the
latest rolling summary (0 when none was produced yet). -/
def coveredUtterances (s : ConversationSession) : Nat :=
  (s.summaries.getLast?).elim 0 (fun sm => sm.utteranceRangeCovered)

/-- Modelled from the spec: the pure projection computing the stats snapshot
from the current ConversationSession state and the current time. -/
def statsOf (s : ConversationSession) (now : Nat) : StatsSnapshot :=
  { isActive := s.status == ConvStatus.active
    startTime := s.startTime
    durationSeconds := now - s.startTime
    totalUtterances := s.utteranceLog.length
    currentBufferSize := s.utteranceLog.length - coveredUtterances s
    totalSummaries := s.summaries.length
    lastSummaryTime := s.lastSummaryTime }

/-- Modelled from the spec: `stats` as a state-passing operation, so that
"no side effects" is the statement that the session comes back unchanged. -/
def statsOp (s : ConversationSession) (now : Nat) :
    StatsSnapshot × ConversationSession :=
  (statsOf s now, s)

/-! ## The Record Audio timer (from src/frontend/src/app/components/UploadRecord.js) -/

/-- `const MAX_RECORDING_DURATION = 300` (UploadRecord.js line 38). -/
def MAX_RECORDING_DURATION : Nat := 300

/-- The recorder state the timer callback touches: the duration counter and
whether the MediaRecorder is running. -/
structure RecorderState where
  recordingDuration : Nat
  isRecording : Bool
deriving DecidableEq

/-- The `mediaRecorderRef.current` truthiness inside the timer's
`stopRecording` call: the ref is stable across renders and `startRecording`
assigns the MediaRecorder to it (line 109) before creating the interval, so
by the time a tick fires it is non-null. -/
def mediaRecorderPresent : Bool := true

/-- The `isRecording` value the timer's `stopRecording` call reads:
`startRecording` only runs from a render in which `isRecording` is `false`
(the mic button calls it only when not recording, line 367), and the
interval callback holds that render's `stopRecording` closure, which
captured that render's `isRecording`. The later `setIsRecording(true)`
produces new closures for later renders but never changes this captured
value. -/
def staleIsRecording : Bool := false

/-- `stopRecording` (UploadRecord.js lines 130-139) as the interval callback
invokes it: guarded by `if (mediaRecorderRef.current && isRecording)`, with
`isRecording` the stale captured value; when the guard fails, neither
`mediaRecorder.stop()` nor `setIsRecording(false)` nor `clearInterval` runs
and the state is returned unchanged. -/
def stopRecordingStale (s : RecorderState) : RecorderState :=
  if mediaRecorderPresent && staleIsRecording then
    { s with isRecording := false }
  else s

/-- One `setInterval` tick (UploadRecord.js lines 115-123): with the
previous duration `prev`, if `prev >= MAX_RECORDING_DURATION` it calls
`stopRecording()` (through the stale closure) and returns `prev` unchanged;
otherwise it returns `prev + 1`. -/
def timerTick (s : RecorderState) : RecorderState :=
  if MAX_RECORDING_DURATION ≤ s.recordingDuration then
    stopRecordingStale s
  else
    { s with recordingDuration := s.recordingDuration + 1 }

/-- `startRecording` (UploadRecord.js lines 110-112): the recorder starts
and the duration counter is reset to 0. -/
def startState : RecorderState :=
  { recordingDuration := 0, isRecording := true }

/-! ## Helper lemmas -/

/-- The client's min-bounded slice at index `i` is the plain
take-after-drop chunk: `take` already stops at the end of the list. -/
theorem clientChunk_eq (file : Bytes) (i : Nat) :
    clientChunk file i = (file.drop (i * chunkSize)).take chunkSize := by
  unfold clientChunk slice
  rw [List.take_eq_take]
  simp only [List.length_drop]
  omega

/-- Concatenating the client's chunks in index order is the identity on the
file's bytes. -/
theorem flatten_clientChunks (file : Bytes) :
    ((List.range (clientTotalChunks file.length)).map
      (fun i => (file.drop (i * chunkSize)).take chunkSize)).flatten = file := by
  suffices H : ∀ n (l : Bytes), l.length = n →
      ((List.range (clientTotalChunks l.length)).map
        (fun i => (l.drop (i * chunkSize)).take chunkSize)).flatten = l from
    H file.length file rfl
  intro n
  induction n using Nat.strong_induction_on with
  | _ n ih =>
    intro l hlen
    rcases eq_or_ne l [] with h0 | h0
    · subst h0
      simp [clientTotalChunks, ceilDiv, chunkSize]
    · have hL : 0 < l.length := List.length_pos.mpr h0
      have hc : 0 < chunkSize := by decide
      have hstep : clientTotalChunks l.length =
          clientTotalChunks (l.drop chunkSize).length + 1 := by
        simp only [clientTotalChunks, ceilDiv, chunkSize, List.length_drop]
        simp only [chunkSize] at hc
        omega
      rw [hstep, List.range_succ_eq_map, List.map_cons, List.map_map,
        List.flatten_cons]
      have htail :
          List.map ((fun i => (l.drop (i * chunkSize)).take chunkSize) ∘ Nat.succ)
            (List.range (clientTotalChunks (l.drop chunkSize).length)) =
          List.map (fun i => ((l.drop chunkSize).drop (i * chunkSize)).take chunkSize)
            (List.range (clientTotalChunks (l.drop chunkSize).length)) := by
        refine List.map_congr_left ?_
        intro a _
        simp only [Function.comp_apply, List.drop_drop, Nat.succ_mul]
        rw [Nat.add_comm]
      have hlt : (l.drop chunkSize).length < n := by
        simp only [List.length_drop]
        omega
      rw [htail, ih (l.drop chunkSize).length hlt (l.drop chunkSize) rfl]
      simp only [Nat.zero_mul, List.drop_zero]
      exact List.take_append_drop chunkSize l

/-- Folding `receiveChunk` over a duplicate-free list of fresh in-range
indices succeeds and stores exactly the client's chunk at each of those
indices, leaving the rest of the store and the chunk count unchanged and
never reaching the complete status. -/
theorem uploadChunks_ok (file : Bytes) :
    ∀ (order : List Nat) (s : UploadSession), order.Nodup →
      (∀ i ∈ order, i < s.totalChunks) → (∀ i ∈ order, s.received i = none) →
      ∃ s', uploadChunks file order s = Except.ok s' ∧
        s'.totalChunks = s.totalChunks ∧
        (∀ j ∈ order, s'.received j = some (clientChunk file j)) ∧
        (∀ j, j ∉ order → s'.received j = s.received j) ∧
        (s'.status = s.status ∨ s'.status = UploadStatus.receiving) := by
  intro order
  induction order with
  | nil =>
    intro s _ _ _
    exact ⟨s, rfl, rfl, by simp, fun _ _ => rfl, Or.inl rfl⟩
  | cons i rest ih =>
    intro s hnd hlt hnone
    obtain ⟨hi_rest, hnd_rest⟩ := List.nodup_cons.mp hnd
    have hi : i < s.totalChunks := hlt i (List.mem_cons_self i rest)
    have hni : s.received i = none := hnone i (List.mem_cons_self i rest)
    set s1 : UploadSession := { s with
      received := fun j => if j = i then some (clientChunk file i) else s.received j
      status := UploadStatus.receiving } with hs1
    have hstep : uploadChunks file (i :: rest) s = uploadChunks file rest s1 := by
      simp only [uploadChunks, receiveChunk, if_pos hi, hni, hs1]
    rw [hstep]
    obtain ⟨s', hrun, htc, hin, hout, hst⟩ :=
      ih s1 hnd_rest
        (fun j hj => by
          show j < s1.totalChunks
          simpa [hs1] using hlt j (List.mem_cons_of_mem i hj))
        (fun j hj => by
          show s1.received j = none
          have hji : j ≠ i := fun h => hi_rest (h ▸ hj)
          simpa [hs1, hji] using hnone j (List.mem_cons_of_mem i hj))
    have htc1 : s1.totalChunks = s.totalChunks := by simp [hs1]
    refine ⟨s', hrun, htc1 ▸ htc, ?_, ?_, ?_⟩
    · intro j hj
      rcases List.mem_cons.mp hj with hj | hj
      · subst hj
        rw [hout j hi_rest]
        simp [hs1]
      · exact hin j hj
    · intro j hj
      have hj_rest : j ∉ rest := fun h => hj (List.mem_cons_of_mem i h)
      have hji : j ≠ i := fun h => hj (h ▸ List.mem_cons_self i rest)
      rw [hout j hj_rest]
      simp [hs1, hji]
    · rcases hst with h | h
      · exact Or.inr (by simpa [hs1] using h)
      · exact Or.inr h

/-! ## Claim theorems -/

/-- C1: for every (nonempty) file and every permutation of chunk uploads
covering indices `0..totalChunks-1` exactly once, `initSession` accepts the
client's parameters, every `receiveChunk` succeeds, and `finishUpload`
concatenates the stored chunks strictly in ascending index order, so the
reassembled recording is byte-identical to the original file regardless of
arrival order; moreover, with the client's slicing
(chunk `i` = bytes `[i*2^20, min((i+1)*2^20, size))`), concatenating the
slices in index order is the identity on the file's bytes. -/
theorem finish_reassembles_any_order (fname : String) (file : Bytes)
    (order : List Nat) (hfile : file ≠ [])
    (hperm : order.Perm (List.range (clientTotalChunks file.length))) :
    ∃ s0 s1 s2,
      initSession fname file.length (clientTotalChunks file.length) =
        Except.ok s0 ∧
      uploadChunks file order s0 = Except.ok s1 ∧
      finishUpload s1 = FinishResult.ok file s2 ∧
      ((List.range (clientTotalChunks file.length)).map
        (clientChunk file)).flatten = file := by
  have hL : 0 < file.length := List.length_pos.mpr hfile
  have hn : clientTotalChunks file.length ≠ 0 := by
    simp only [clientTotalChunks, ceilDiv, chunkSize]
    omega
  have hguard : ¬(clientTotalChunks file.length = 0 ∨ file.length = 0) := by
    push_neg
    exact ⟨hn, by omega⟩
  set n := clientTotalChunks file.length with hn_def
  set s0 : UploadSession :=
    { filename := fname
      totalSize := file.length
      totalChunks := n
      received := fun _ => none
      status := UploadStatus.initiated } with hs0
  have hinit : initSession fname file.length n = Except.ok s0 := by
    simp [initSession, hguard, hs0, hn, hfile]
  have hmem : ∀ i ∈ order, i < n := by
    intro i hi
    have := hperm.mem_iff.mp hi
    simpa [List.mem_range] using this
  obtain ⟨s1, hrun, htc, hin, _, hst⟩ :=
    uploadChunks_ok file order s0
      (hperm.nodup_iff.mpr (List.nodup_range n))
      (fun i hi => hmem i hi)
      (fun _ _ => rfl)
  have htc1 : s1.totalChunks = n := htc
  have hstat : ¬s1.status = UploadStatus.complete := by
    rcases hst with h | h <;> simp [h, hs0]
  have hall : ∀ j, j < n → s1.received j = some (clientChunk file j) := by
    intro j hj
    exact hin j (hperm.mem_iff.mpr (List.mem_range.mpr hj))
  have hmiss : missingIndices s1 = [] := by
    unfold missingIndices
    rw [htc1]
    refine List.filter_eq_nil_iff.mpr ?_
    intro j hj
    rw [hall j (List.mem_range.mp hj)]
    simp
  have hasm : assembled s1 = file := by
    unfold assembled
    rw [htc1]
    have hmap : (List.range n).map (fun i => (s1.received i).getD []) =
        (List.range n).map (fun i => (file.drop (i * chunkSize)).take chunkSize) := by
      refine List.map_congr_left ?_
      intro i hi
      rw [hall i (List.mem_range.mp hi), Option.getD_some, clientChunk_eq]
    rw [hmap, hn_def]
    exact flatten_clientChunks file
  have hfin : finishUpload s1 =
      FinishResult.ok file { s1 with status := UploadStatus.complete } := by
    unfold finishUpload
    rw [if_neg hstat, hmiss, if_pos rfl, hasm]
  refine ⟨s0, s1, { s1 with status := UploadStatus.complete },
    hinit, hrun, hfin, ?_⟩
  have hmap2 : (List.range n).map (clientChunk file) =
      (List.range n).map (fun i => (file.drop (i * chunkSize)).take chunkSize) :=
    List.map_congr_left (fun i _ => clientChunk_eq file i)
  rw [hmap2, hn_def]
  exact flatten_clientChunks file

/-- Witness for C1: a three-byte file in one chunk, uploaded in the (only)
permutation `[0]`, reassembles to itself. -/
theorem finish_reassembles_any_order_witness :
    ∃ s0 s1 s2,
      initSession "f" ([1, 2, 3] : Bytes).length
        (clientTotalChunks ([1, 2, 3] : Bytes).length) = Except.ok s0 ∧
      uploadChunks [1, 2, 3] [0] s0 = Except.ok s1 ∧
      finishUpload s1 = FinishResult.ok [1, 2, 3] s2 ∧
      ((List.range (clientTotalChunks ([1, 2, 3] : Bytes).length)).map
        (clientChunk [1, 2, 3])).flatten = [1, 2, 3] :=
  finish_reassembles_any_order "f" [1, 2, 3] [0] (by decide) (by decide)

/-- A sequence of appends on an active session succeeds, keeps the session
active and extends the sequence-number projection of the log by the next
`segs.length` consecutive numbers. -/
theorem appendAll_active (segs : List (String × String × Nat × Nat)) :
    ∀ s : ConversationSession, s.status = ConvStatus.active →
      ∃ s', appendAll s segs = Except.ok s' ∧
        s'.status = ConvStatus.active ∧
        s'.utteranceLog.map (fun u => u.sequenceNumber) =
          s.utteranceLog.map (fun u => u.sequenceNumber) ++
            List.range' (s.utteranceLog.length + 1) segs.length := by
  induction segs with
  | nil =>
    intro s hs
    exact ⟨s, rfl, hs, by simp⟩
  | cons p rest ih =>
    obtain ⟨sp, tx, off, sid⟩ := p
    intro s hs
    have hne : ¬s.status = ConvStatus.ended := by simp [hs]
    set s1 : ConversationSession := { s with
      utteranceLog := s.utteranceLog ++
        [{ sequenceNumber := s.utteranceLog.length + 1, speakerLabel := sp,
           text := tx, timestampOffset := off, sourceSegmentId := sid }] } with hs1
    have hstep : appendAll s ((sp, tx, off, sid) :: rest) = appendAll s1 rest := by
      simp only [appendAll, appendUtterance, if_neg hne, hs1]
    obtain ⟨s', hrun, hact, hmap⟩ := ih s1 (by simp [hs1, hs])
    have hlen1 : s1.utteranceLog.length = s.utteranceLog.length + 1 := by
      simp [hs1]
    refine ⟨s', by rw [hstep]; exact hrun, hact, ?_⟩
    rw [hmap, hlen1]
    simp only [hs1, List.map_append, List.map_cons, List.map_nil, List.length_cons]
    rw [List.append_assoc, List.range'_succ]
    simp

/-- C2: for every conversation session and every K, after K sequential
`appendUtterance` calls (with arbitrary per-call transcription results,
modelling arbitrary per-call latency) the utterance log carries
sequenceNumbers exactly 1..K, strictly increasing and equal to arrival
order. -/
theorem appendUtterance_sequence_numbers (t : Nat)
    (segs : List (String × String × Nat × Nat)) :
    ∃ s', appendAll (startConversation t) segs = Except.ok s' ∧
      s'.utteranceLog.map (fun u => u.sequenceNumber) =
        List.range' 1 segs.length := by
  obtain ⟨s', hrun, _, hmap⟩ := appendAll_active segs (startConversation t) rfl
  exact ⟨s', hrun, by simpa [startConversation] using hmap⟩

/-- C3: on a not-yet-complete session with every chunk present, finish
succeeds returning the assembled recording; with chunks missing it returns
the incomplete response, whose listed indices are exactly the in-range
indices that have not been received. -/
theorem finishUpload_success_or_missing (s t : UploadSession) (k : Nat)
    (hs1 : ¬s.status = UploadStatus.complete)
    (hs2 : ∀ i < s.totalChunks, (s.received i).isSome)
    (ht1 : ¬t.status = UploadStatus.complete)
    (ht2 : missingIndices t ≠ []) :
    (∃ s', finishUpload s = FinishResult.ok (assembled s) s') ∧
    finishUpload t = FinishResult.incomplete (missingIndices t) ∧
    (k ∈ missingIndices t ↔ k < t.totalChunks ∧ t.received k = none) := by
  refine ⟨?_, ?_, ?_⟩
  · have hmiss : missingIndices s = [] := by
      unfold missingIndices
      refine List.filter_eq_nil_iff.mpr ?_
      intro j hj
      have hsome := hs2 j (List.mem_range.mp hj)
      intro hnone
      rw [Option.isNone_iff_eq_none] at hnone
      rw [hnone] at hsome
      simp at hsome
    refine ⟨{ s with status := UploadStatus.complete }, ?_⟩
    unfold finishUpload
    rw [if_neg hs1, hmiss, if_pos rfl]
  · unfold finishUpload
    rw [if_neg ht1, if_neg ht2]
  · unfold missingIndices
    simp [List.mem_filter, List.mem_range, Option.isNone_iff_eq_none]

/-- Witness for C3: `sessionA` has its single chunk, `sessionB` is missing
exactly index 1. -/
theorem finishUpload_success_or_missing_witness :
    (∃ s', finishUpload sessionA = FinishResult.ok (assembled sessionA) s') ∧
    finishUpload sessionB = FinishResult.incomplete (missingIndices sessionB) ∧
    (1 ∈ missingIndices sessionB ↔
      1 < sessionB.totalChunks ∧ sessionB.received 1 = none) :=
  finishUpload_success_or_missing sessionA sessionB 1
    (by decide) (by decide) (by decide) (by decide)

/-- C4: re-sending the bytes already stored at an in-range index is a no-op
success returning the session unchanged, and sending different bytes at
that index fails with Conflict. -/
theorem receiveChunk_idempotent_or_conflict (s : UploadSession) (i : Nat)
    (b same diff : Bytes) (hi : i < s.totalChunks)
    (hrec : s.received i = some b) (hsame : same = b) (hdiff : diff ≠ b) :
    receiveChunk s i same = Except.ok s ∧
    receiveChunk s i diff = Except.error UploadError.conflict := by
  constructor
  · simp [receiveChunk, if_pos hi, hrec, hsame]
  · simp [receiveChunk, if_pos hi, hrec, hdiff]

/-- Witness for C4: `sessionA` stores `[7]` at index 0; re-sending `[7]` is
the identity, sending `[8]` is a Conflict. -/
theorem receiveChunk_idempotent_or_conflict_witness :
    receiveChunk sessionA 0 [7] = Except.ok sessionA ∧
    receiveChunk sessionA 0 [8] = Except.error UploadError.conflict :=
  receiveChunk_idempotent_or_conflict sessionA 0 [7] [7] [8]
    (by decide) (by decide) rfl (by decide)

/-- C6: an init request with totalChunks = 0 or totalSize = 0 fails
InvalidRequest and creates no session; the client's computed
`total_chunks = ceil(size / 2^20)` is 0 exactly for a zero-byte file, and
in particular the request the client constructs for a zero-byte file is
rejected. -/
theorem initSession_rejects_invalid (fname : String) (ts tc L : Nat)
    (h : tc = 0 ∨ ts = 0) :
    initSession fname ts tc = Except.error UploadError.invalidRequest ∧
    (clientTotalChunks L = 0 ↔ L = 0) ∧
    initSession fname 0 (clientTotalChunks 0) =
      Except.error UploadError.invalidRequest := by
  refine ⟨?_, ?_, ?_⟩
  · unfold initSession
    rw [if_pos h]
  · simp only [clientTotalChunks, ceilDiv, chunkSize]
    omega
  · unfold initSession
    rw [if_pos (Or.inr rfl)]

/-- Witness for C6: the zero-chunk, zero-size request is rejected, and the
client computes 0 chunks only for the empty file. -/
theorem initSession_rejects_invalid_witness :
    initSession "f" 0 0 = Except.error UploadError.invalidRequest ∧
    (clientTotalChunks 5 = 0 ↔ 5 = 0) ∧
    initSession "f" 0 (clientTotalChunks 0) =
      Except.error UploadError.invalidRequest :=
  initSession_rejects_invalid "f" 0 0 5 (Or.inl rfl)

/-- C7: `end` is idempotent — calling it again on the session it returned
(with an arbitrary, possibly different synthesis function and time) returns
the previously produced note and leaves every part of the session state
unchanged; after the first call the status is ended. -/
theorem endSession_idempotent (synth synth2 : List Utterance → SOAPNote)
    (s : ConversationSession) (n1 n2 : Nat) :
    endSession synth2 (endSession synth s n1).2 n2 = endSession synth s n1 ∧
    (endSession synth s n1).2.status = ConvStatus.ended := by
  by_cases h : s.status = ConvStatus.ended
  · exact ⟨by simp [endSession, h], by simp [endSession, h]⟩
  · exact ⟨by simp [endSession, h], by simp [endSession, h]⟩

/-- C8: the stats operation is a pure projection of the ConversationSession
state: it leaves the session unchanged, a repeated call returns the same
snapshot, and the snapshot consists of exactly the specified fields, each
computed from the current session state. -/
theorem stats_pure_projection (s : ConversationSession) (now : Nat) :
    (statsOp s now).2 = s ∧
    (statsOp (statsOp s now).2 now).1 = (statsOp s now).1 ∧
    (statsOp s now).1 =
      { isActive := s.status == ConvStatus.active
        startTime := s.startTime
        durationSeconds := now - s.startTime
        totalUtterances := s.utteranceLog.length
        currentBufferSize := s.utteranceLog.length - coveredUtterances s
        totalSummaries := s.summaries.length
        lastSummaryTime := s.lastSummaryTime } :=
  ⟨rfl, rfl, rfl⟩

/-- C9: the upload client's init request declares `chunk_size` equal to the
whole file's size, every chunk before the last has size exactly `2^20`
bytes, and for a file larger than one chunk the declared chunk size differs
from the size of every chunk actually uploaded. -/
theorem initRequest_declared_chunk_size_mismatch (name : String)
    (file : Bytes) (i : Nat) (h : chunkSize < file.length) :
    (initRequestOf name file).chunk_size = file.length ∧
    (i + 1 < clientTotalChunks file.length →
      (clientChunk file i).length = chunkSize) ∧
    (i < clientTotalChunks file.length →
      (clientChunk file i).length ≠ (initRequestOf name file).chunk_size) := by
  refine ⟨rfl, ?_, ?_⟩ <;>
  · intro hi
    simp only [clientChunk, slice, List.length_take, List.length_drop,
      clientTotalChunks, ceilDiv, chunkSize, initRequestOf] at *
    omega

/-- Witness for C9: a file of `2^20 + 1` zero bytes spans two chunks; the
first chunk is full-size and no chunk matches the declared chunk_size. -/
theorem initRequest_declared_chunk_size_mismatch_witness :
    (initRequestOf "f" (List.replicate 1048577 0)).chunk_size =
      (List.replicate 1048577 (0 : Nat)).length ∧
    (0 + 1 < clientTotalChunks (List.replicate 1048577 (0 : Nat)).length →
      (clientChunk (List.replicate 1048577 0) 0).length = chunkSize) ∧
    (0 < clientTotalChunks (List.replicate 1048577 (0 : Nat)).length →
      (clientChunk (List.replicate 1048577 0) 0).length ≠
        (initRequestOf "f" (List.replicate 1048577 0)).chunk_size) :=
  initRequest_declared_chunk_size_mismatch "f" (List.replicate 1048577 0) 0
    (by rw [List.length_replicate]; norm_num [chunkSize])

/-- One tick written out on explicit fields: below the maximum the counter
advances; at or past it the stale `stopRecording` guard fails and the whole
state — counter and recorder alike — is unchanged. -/
theorem timerTick_eq (d : Nat) (b : Bool) :
    timerTick { recordingDuration := d, isRecording := b } =
      if MAX_RECORDING_DURATION ≤ d then
        { recordingDuration := d, isRecording := b }
      else
        { recordingDuration := d + 1, isRecording := b } := by
  by_cases h : MAX_RECORDING_DURATION ≤ d <;>
    simp [timerTick, stopRecordingStale, mediaRecorderPresent,
      staleIsRecording, h]

/-- The recorder state after any number of timer ticks: the counter is the
tick count capped at `MAX_RECORDING_DURATION`, and the MediaRecorder is
still running whatever the count. -/
theorem timerTick_iterate (n : Nat) :
    timerTick^[n] startState =
      { recordingDuration := min n MAX_RECORDING_DURATION
        isRecording := true } := by
  induction n with
  | zero =>
    simp [startState]
  | succ k ihk =>
    rw [Function.iterate_succ_apply', ihk, timerTick_eq]
    by_cases hk : MAX_RECORDING_DURATION ≤ min k MAX_RECORDING_DURATION
    · rw [if_pos hk]
      simp only [RecorderState.mk.injEq, and_true]
      omega
    · rw [if_neg hk]
      simp only [RecorderState.mk.injEq, and_true]
      omega

/-- C10: the code at the failing input. The duration counter does cap at
300 (after 300 and after 301 ticks it reads 300, and it never exceeds the
maximum), but on the tick where `prev >= MAX_RECORDING_DURATION` the
`stopRecording()` call is a no-op — its guard reads the stale captured
`isRecording = false` — so the MediaRecorder is still running after 301
ticks (and after any number of ticks), contradicting the claim's "stops
the MediaRecorder" conjunct. -/
theorem recording_timer_never_stops_recorder :
    (timerTick^[300] startState).recordingDuration = 300 ∧
    (timerTick^[301] startState).recordingDuration = 300 ∧
    (timerTick^[301] startState).isRecording = true ∧
    stopRecordingStale { recordingDuration := 300, isRecording := true } =
      { recordingDuration := 300, isRecording := true } := by
  refine ⟨?_, ?_, ?_, ?_⟩
  · rw [timerTick_iterate]
    decide
  · rw [timerTick_iterate]
    decide
  · rw [timerTick_iterate]
  · simp [stopRecordingStale, mediaRecorderPresent, staleIsRecording]

end MediScribe
